import Mathlib

/-!
Verification of the django-clean-fields repository.

This file gives a shallow embedding of the registration/dispatch layer of
the repository (clean_fields/decorators.py, clean_fields/models.py,
clean_fields/utils.py, clean_fields/exc.py, and the legacy top-level
models.py and decorators.py), and proves the claims of the specification
against it.

Modelling conventions:
- Python values are the inductive type Val.  The NoValue sentinel class of
  clean_fields/utils.py is the constructor Val.noValueClass; Val.eqAny
  models an object whose custom equality method answers true against any
  operand (Python consults such methods when evaluating the == operator,
  so getattr defaults are not distinguishable from such objects).
- Python exceptions are the inductive type Exc; raising is modelled with
  Except.  CleanFieldsConfigurationError carries the three constructor
  arguments of exc.py directly.
- A model instance is a structure holding its model label (app.Model), the
  field names reported by the _meta API, and an ordered attribute
  dictionary.  Attribute values that are callables are represented with
  the constructor Attr.fn; a bound method is represented with its explicit
  parameters only (the self parameter is already bound).
- Calling a function with a wrong number of positional arguments raises a
  TypeError with the message CPython 3 produces; the names of missing
  parameters are elided from the missing-argument message, which does not
  affect the pattern matching performed by call_cleaner.
-/

namespace CleanFields

/-- Python exceptions raised by the embedded code.  The constructor
configurationError carries the three arguments given to
CleanFieldsConfigurationError(model_label, field_name, cleaner_name). -/
inductive Exc where
  | typeError (msg : String)
  | attributeError (msg : String)
  | keyError (key : String)
  | valueError (msg : String)
  | configurationError (modelLabel fieldName cleanerName : String)
deriving DecidableEq, Repr

/-- Python values flowing through the embedded code. -/
inductive Val where
  | int (n : Int)
  | str (s : String)
  | none
  | noValueClass
  | eqAny
  | dict (entries : List (String × Val))
  | instRef
  | fnRef (name : String) (params : Nat)

/-- Python truthiness of a value (bool(v)). -/
def Val.truthy : Val → Bool
  | .int n => n != 0
  | .str s => s != ""
  | .none => false
  | .noValueClass => true
  | .eqAny => true
  | .dict d => !d.isEmpty
  | .instRef => true
  | .fnRef _ _ => true

mutual

/-- Python equality (the == operator), together with its elementwise
extension to dictionary entry lists.  An eqAny operand answers true on
either side, modelling a custom equality method; otherwise equality is
structural.  (Python compares dictionaries without regard to insertion
order; the embedded code never compares two dictionaries, so the
order-sensitive comparison is adequate here.) -/
def pyEq : Val → Val → Bool
  | .eqAny, _ => true
  | _, .eqAny => true
  | .int n, .int m => n == m
  | .str a, .str b => a == b
  | .none, .none => true
  | .noValueClass, .noValueClass => true
  | .dict a, .dict b => pyEqEntries a b
  | .instRef, .instRef => true
  | .fnRef n p, .fnRef m q => n == m && p == q
  | _, _ => false

def pyEqEntries : List (String × Val) → List (String × Val) → Bool
  | [], [] => true
  | (k, v) :: r, (l, w) :: s => k == l && pyEq v w && pyEqEntries r s
  | _, _ => false

end

/-- A Python callable: its __name__, its exact number of positional
parameters, and its body, run when the arity matches. -/
structure Fn where
  name : String
  params : Nat
  body : List Val → Except Exc Val

/-- An attribute of a model instance: a plain value or a callable. -/
inductive Attr where
  | val (v : Val)
  | fn (f : Fn)

/-- A Django model instance: its model label (app_label.ModelName), the
field names its _meta API reports, and its attribute dictionary. -/
structure Instance where
  modelLabel : String
  metaFieldNames : List String
  attrs : List (String × Attr)

/-- Attribute lookup (getattr without a default yields Option.none when
the name is absent). -/
def lookupAttr (inst : Instance) (name : String) : Option Attr :=
  (inst.attrs.find? (fun p => p.fst == name)).map Prod.snd

/-- Helper for setattr: replace the binding of a key in an ordered
attribute list, or append a new binding. -/
def setAttrList : List (String × Attr) → String → Attr → List (String × Attr)
  | [], n, a => [(n, a)]
  | (k, w) :: rest, n, a =>
    if k == n then (k, a) :: rest else (k, w) :: setAttrList rest n a

/-- Python setattr on a model instance. -/
def Instance.setattr (inst : Instance) (name : String) (a : Attr) : Instance :=
  { inst with attrs := setAttrList inst.attrs name a }

/-- The image of an attribute in value position (a callable attribute
passed around as data becomes an opaque reference to the callable). -/
def attrToVal : Attr → Val
  | .val v => v
  | .fn f => .fnRef f.name f.params

/-- Truthiness of an attribute (function objects are truthy). -/
def Attr.truthy : Attr → Bool
  | .val v => v.truthy
  | .fn _ => true

/-- The callable(x) test.  Callables in attribute position are always
represented with the Attr.fn constructor. -/
def Attr.isCallable : Attr → Bool
  | .val _ => false
  | .fn _ => true

/-- Python type name of a value, used in error messages. -/
def Val.typeName : Val → String
  | .int _ => "int"
  | .str _ => "str"
  | .none => "NoneType"
  | .noValueClass => "type"
  | .eqAny => "object"
  | .dict _ => "dict"
  | .instRef => "Model"
  | .fnRef _ _ => "function"

/-- The test x is None (identity with the None singleton). -/
def isPyNone : Attr → Bool
  | .val .none => true
  | _ => false

/-- Pluralizing suffix used in CPython arity error messages. -/
def plural (n : Nat) : String := if n == 1 then "" else "s"

/-- CPython 3 message for a call with too many positional arguments. -/
def tooManyMsg (name : String) (params given : Nat) : String :=
  name ++ "() takes " ++ toString params ++ " positional argument" ++ plural params
    ++ " but " ++ toString given ++ (if given == 1 then " was" else " were") ++ " given"

/-- CPython 3 message for a call with missing positional arguments (the
parameter names that CPython appends are elided). -/
def tooFewMsg (name : String) (missing : Nat) : String :=
  name ++ "() missing " ++ toString missing ++ " required positional argument"
    ++ plural missing

/-- Calling a Python function: the body runs when the number of
positional arguments matches; otherwise a TypeError is raised. -/
def callFn (f : Fn) (args : List Val) : Except Exc Val :=
  if args.length = f.params then f.body args
  else if f.params < args.length then
    .error (.typeError (tooManyMsg f.name f.params args.length))
  else
    .error (.typeError (tooFewMsg f.name (f.params - args.length)))

/-- Calling an attribute: a non-callable value raises a TypeError (the
quotation marks CPython puts around the type name are elided). -/
def callAttr : Attr → List Val → Except Exc Val
  | .fn f, args => callFn f args
  | .val v, _ => .error (.typeError (v.typeName ++ " object is not callable"))

/-!
The pattern search performed by call_cleaner in clean_fields/decorators.py:
re.search with the raw pattern

  takes( exactly)? \x5cd( positional)? arguments?

The matcher below checks the pattern at one starting position; the search
tries every starting position, as re.search does.  A trailing optional s
never affects whether a match exists, so it is not consumed.
-/

/-- Drop an expected literal prefix from a character list. -/
def dropPfx : List Char → List Char → Option (List Char)
  | [], s => some s
  | _ :: _, [] => Option.none
  | p :: ps, c :: cs => if p = c then dropPfx ps cs else Option.none

/-- Match the final " argument" part of the pattern. -/
def matchArgumentPart (s : List Char) : Bool :=
  (dropPfx " argument".toList s).isSome

/-- Match the optional " positional" part followed by " argument". -/
def matchPositionalPart (s : List Char) : Bool :=
  (match dropPfx " positional".toList s with
   | some r => matchArgumentPart r
   | Option.none => false) || matchArgumentPart s

/-- Match a space, one digit, then the rest of the pattern. -/
def matchDigitPart : List Char → Bool
  | ' ' :: c :: rest => c.isDigit && matchPositionalPart rest
  | _ => false

/-- Match the whole pattern at the current position: "takes", an optional
" exactly", a space, a digit, an optional " positional", " argument". -/
def matchTakes (s : List Char) : Bool :=
  match dropPfx "takes".toList s with
  | some r =>
    (match dropPfx " exactly".toList r with
     | some r2 => matchDigitPart r2
     | Option.none => false) || matchDigitPart r
  | Option.none => false

/-- Search for the pattern at every starting position (re.search). -/
def aritySearch : List Char → Bool
  | [] => false
  | c :: rest => matchTakes (c :: rest) || aritySearch rest

/-- The test applied by call_cleaner to the text of a caught TypeError. -/
def arityMessageMatch (msg : String) : Bool :=
  aritySearch msg.toList

/-!
clean_fields/utils.py
-/

/-- Message of the AttributeError raised by get_model_field_value (the
interpolated repr of the instance is elided). -/
def noFieldMsg (name : String) : String :=
  "Object has no field named \"" ++ name ++ "\""

/-- Source: get_model_field_value in clean_fields/utils.py.  Looks the
field up with getattr and the NoValue default, raises AttributeError when
the result compares equal (with ==) to the NoValue class, and returns the
result otherwise. -/
def get_model_field_value (inst : Instance) (name : String) : Except Exc Val :=
  let field_value := attrToVal ((lookupAttr inst name).getD (Attr.val Val.noValueClass))
  if pyEq field_value Val.noValueClass then
    .error (.attributeError (noFieldMsg name))
  else
    .ok field_value

/-- Source: get_model_field_names in clean_fields/utils.py.  Both branches
of the version shim (meta.get_fields and meta.get_all_field_names) report
the field names held by the _meta API, here stored directly on the
instance. -/
def get_model_field_names (inst : Instance) : List String :=
  inst.metaFieldNames

/-- Message of the ValueError CPython raises when unpacking a split of
the wrong length. -/
def unpackMsg (got : Nat) : String :=
  if 3 < got then "too many values to unpack (expected 3)"
  else "not enough values to unpack (expected 3, got " ++ toString got ++ ")"

/-- Source: parse_field_ref in clean_fields/utils.py.  Splits on dots into
app name, model name and field name, and returns the model label together
with the field name. -/
def parse_field_ref (field_ref : String) : Except Exc (String × String) :=
  match field_ref.splitOn "." with
  | [app_name, model_name, field_name] =>
    .ok (app_name ++ "." ++ model_name, field_name)
  | parts => .error (.valueError (unpackMsg parts.length))

/-- Message built by CleanFieldsConfigurationError in clean_fields/exc.py. -/
def configurationErrorMessage (modelLabel fieldName cleanerName : String) : String :=
  "Callable \"" ++ cleanerName ++ "\" configured to clean \"" ++ fieldName
    ++ "\", but \"" ++ modelLabel ++ "\" has no such field"

/-!
clean_fields/decorators.py
-/

/-- Source: call_cleaner in clean_fields/decorators.py.  First, when the
instance has a non-None attribute named like the callable, that attribute
is called with the given arguments.  Otherwise the callable is called with
the instance prepended; a TypeError from that call whose text matches the
arity pattern leads to calling the callable with the arguments alone,
while every other exception propagates. -/
def call_cleaner (cleaner_callable : Fn) (args : List Val) (inst : Instance) :
    Except Exc Val :=
  let field_cleaner := (lookupAttr inst cleaner_callable.name).getD (Attr.val Val.none)
  if !isPyNone field_cleaner then
    callAttr field_cleaner args
  else
    match callFn cleaner_callable (Val.instRef :: args) with
    | .ok v => .ok v
    | .error (Exc.typeError msg) =>
      if !arityMessageMatch msg then .error (Exc.typeError msg)
      else callFn cleaner_callable args
    | .error e => .error e

/-- A pre-save signal receiver installed by one of the two decorators.
Registrations are appended to the signal at import time and never
disconnected; a dispatch list is therefore an immutable list in
registration order. -/
inductive Registration where
  | single (modelLabel fieldName : String) (cleaner : Fn)
  | withContext (modelLabel fieldName : String) (cleaner : Fn)

/-- The sender label a registration listens for. -/
def Registration.modelLabel : Registration → String
  | .single ml _ _ => ml
  | .withContext ml _ _ => ml

/-- Source: the registration performed by the cleans_field decorator
(parse the field reference, then connect a single-field receiver). -/
def cleans_field (field_ref : String) (cleaner : Fn) : Except Exc Registration :=
  (parse_field_ref field_ref).map (fun p => .single p.1 p.2 cleaner)

/-- Source: the registration performed by the cleans_field_with_context
decorator. -/
def cleans_field_with_context (field_ref : String) (cleaner : Fn) :
    Except Exc Registration :=
  (parse_field_ref field_ref).map (fun p => .withContext p.1 p.2 cleaner)

/-- Source: signal_handler inside cleans_field.  Reads the field value
(an AttributeError becomes a CleanFieldsConfigurationError), runs the
cleaner through call_cleaner with the value as the sole listed argument,
and assigns the result onto the field. -/
def singleHandler (modelLabel fieldName : String) (cleaner : Fn)
    (inst : Instance) : Except Exc Instance :=
  match get_model_field_value inst fieldName with
  | .error (Exc.attributeError _) =>
    .error (.configurationError modelLabel fieldName cleaner.name)
  | .error e => .error e
  | .ok field_value =>
    match call_cleaner cleaner [field_value] inst with
    | .error e => .error e
    | .ok cleaned_value => .ok (inst.setattr fieldName (Attr.val cleaned_value))

/-- Insert into a Python dictionary held as an ordered entry list: an
existing key keeps its position and receives the new value. -/
def dictInsert : List (String × Val) → String → Val → List (String × Val)
  | [], n, v => [(n, v)]
  | (k, w) :: rest, n, v =>
    if k == n then (k, v) :: rest else (k, w) :: dictInsert rest n v

/-- Dictionary lookup (indexing; Option.none stands for a KeyError). -/
def dictGet (d : List (String × Val)) (key : String) : Option Val :=
  (d.find? (fun p => p.fst == key)).map Prod.snd

/-- Source: the context-building loop of signal_handler inside
cleans_field_with_context: a fresh dictionary mapping every name from
get_model_field_names to the value get_model_field_value reads at that
moment.  An AttributeError from a read propagates. -/
def buildContext (inst : Instance) : Except Exc (List (String × Val)) :=
  (get_model_field_names inst).foldlM
    (fun ctx name => (get_model_field_value inst name).map (dictInsert ctx name))
    []

/-- Source: signal_handler inside cleans_field_with_context.  Builds the
context, takes the field value out of it (a KeyError becomes a
CleanFieldsConfigurationError), runs the cleaner through call_cleaner
with the value and the context as listed arguments, and assigns the
result onto the field. -/
def contextHandler (modelLabel fieldName : String) (cleaner : Fn)
    (inst : Instance) : Except Exc Instance := do
  let context ← buildContext inst
  match dictGet context fieldName with
  | Option.none => .error (.configurationError modelLabel fieldName cleaner.name)
  | some field_value =>
    match call_cleaner cleaner [field_value, Val.dict context] inst with
    | .error e => .error e
    | .ok cleaned_value => .ok (inst.setattr fieldName (Attr.val cleaned_value))

/-- Run one registered receiver on an instance. -/
def runHandler : Registration → Instance → Except Exc Instance
  | .single ml f c, inst => singleHandler ml f c inst
  | .withContext ml f c, inst => contextHandler ml f c inst

/-- Dispatch of the pre_save signal: receivers connected for the sender
label of the instance run in registration order on the successively
updated instance; an exception aborts the dispatch. -/
def sendPreSave (regs : List Registration) (inst : Instance) :
    Except Exc Instance :=
  match regs with
  | [] => .ok inst
  | r :: rest =>
    if r.modelLabel == inst.modelLabel then
      match runHandler r inst with
      | .error e => .error e
      | .ok i2 => sendPreSave rest i2
    else sendPreSave rest inst

/-!
clean_fields/models.py and the legacy top-level models.py
-/

/-- Source: CleanFieldsModel._get_field_cleaner (identical in
clean_fields/models.py and in the legacy top-level models.py): getattr of
clean_<field_name> with a None default, demoted to None when truthy but
not callable.  Option.none stands for Python None. -/
def getFieldCleaner (inst : Instance) (fieldName : String) : Option Attr :=
  match lookupAttr inst ("clean_" ++ fieldName) with
  | Option.none => Option.none
  | some field_cleaner =>
    if field_cleaner.truthy && !field_cleaner.isCallable then Option.none
    else some field_cleaner

/-- One iteration of the loop in
BaseCleanFieldsModel.clean_single_fields (clean_fields/models.py): a
truthy cleaner is called with no arguments and its result assigned onto
the field. -/
def cleanFieldsStep (inst : Instance) (fieldName : String) :
    Except Exc Instance :=
  match getFieldCleaner inst fieldName with
  | some field_cleaner =>
    if field_cleaner.truthy then
      (callAttr field_cleaner []).map (fun v => inst.setattr fieldName (Attr.val v))
    else .ok inst
  | Option.none => .ok inst

/-- Source: BaseCleanFieldsModel.clean_single_fields in
clean_fields/models.py: iterate the loop body over the field names. -/
def clean_single_fields (inst : Instance) : Except Exc Instance :=
  (get_model_field_names inst).foldlM cleanFieldsStep inst

/-- Source: BaseCleanFieldsModel.save in clean_fields/models.py: run
clean_single_fields, then the superclass save.  The superclass save (the
Django Model.save) sends the pre_save signal to the registered receivers
and then persists the row; the returned Bool records that the persist
executed. -/
def save (regs : List Registration) (inst : Instance) :
    Except Exc (Instance × Bool) := do
  let i1 ← clean_single_fields inst
  let i2 ← sendPreSave regs i1
  pure (i2, true)

/-- Message of the AttributeError raised by a getattr without default
(the quoted type and attribute names CPython prints are elided). -/
def plainAttrMsg (name : String) : String :=
  "object has no attribute " ++ name

/-- One iteration of the loop in the legacy BaseCleanFieldsModel.save of
the top-level models.py: a truthy cleaner is called with the current
field value, read by getattr without a default, and its result assigned
onto the field. -/
def legacyCleanStep (inst : Instance) (fieldName : String) :
    Except Exc Instance :=
  match getFieldCleaner inst fieldName with
  | some field_cleaner =>
    if field_cleaner.truthy then
      match lookupAttr inst fieldName with
      | some a =>
        (callAttr field_cleaner [attrToVal a]).map
          (fun v => inst.setattr fieldName (Attr.val v))
      | Option.none => .error (.attributeError (plainAttrMsg fieldName))
    else .ok inst
  | Option.none => .ok inst

/-- Source: the legacy BaseCleanFieldsModel.save in the top-level
models.py: iterate the legacy loop body over the field names, then run
the superclass save (recorded by the Bool). -/
def legacy_save (inst : Instance) : Except Exc (Instance × Bool) :=
  ((get_model_field_names inst).foldlM legacyCleanStep inst).map (fun i => (i, true))

/-- Reading a field of an instance as a value (used to state that a field
holds a given value). -/
def readVal (inst : Instance) (name : String) : Option Val :=
  (lookupAttr inst name).map attrToVal

/-- Observable: whether a handler outcome is a configuration error. -/
def isConfigError : Except Exc Instance → Bool
  | .error (.configurationError _ _ _) => true
  | _ => false

/-- Observable: whether a field read raised an AttributeError. -/
def isAttrErr : Except Exc Val → Bool
  | .error (.attributeError _) => true
  | _ => false

/-- Observable: whether a save reached and completed the underlying
persist. -/
def persisted : Except Exc (Instance × Bool) → Bool
  | .ok (_, b) => b
  | .error _ => false

/-- The condition under which call_cleaner skips the attribute lookup
result: the looked-up attribute is absent or is None. -/
def missingOrNone (inst : Instance) (c : Fn) : Prop :=
  isPyNone ((lookupAttr inst c.name).getD (Attr.val Val.none)) = true

/-- The condition under which clean_single_fields invokes a cleaner for a
field: _get_field_cleaner returns a truthy result. -/
def usableCleaner (inst : Instance) (f : String) : Bool :=
  match getFieldCleaner inst f with
  | some a => a.truthy
  | Option.none => false

/-- A cleaner that is a plain one-parameter pure function. -/
def pureCleaner (nm : String) (g : Val → Val) : Fn :=
  { name := nm, params := 1,
    body := fun args =>
      match args with
      | [v] => .ok (g v)
      | _ => .error (.valueError "unexpected arguments") }

/-!
Helper lemmas
-/

theorem find_setAttrList (l : List (String × Attr)) (n m : String) (a : Attr) :
    ((setAttrList l n a).find? (fun p => p.fst == m)).map Prod.snd
      = if m = n then some a
        else (l.find? (fun p => p.fst == m)).map Prod.snd := by
  induction l with
  | nil =>
    by_cases h : m = n
    · subst h
      simp [setAttrList, List.find?]
    · have hb : (n == m) = false := beq_eq_false_iff_ne.mpr (fun e => h e.symm)
      simp [setAttrList, List.find?, hb, h]
  | cons kv rest ih =>
    obtain ⟨k, w⟩ := kv
    by_cases hkn : k = n
    · subst hkn
      by_cases hmk : m = k
      · subst hmk
        simp [setAttrList, List.find?]
      · have hb : (k == m) = false := beq_eq_false_iff_ne.mpr (fun e => hmk e.symm)
        simp [setAttrList, List.find?, hb, hmk]
    · have hbkn : (k == n) = false := beq_eq_false_iff_ne.mpr hkn
      by_cases hmk : m = k
      · subst hmk
        have hmn : ¬ m = n := hkn
        simp [setAttrList, List.find?, hbkn, hmn]
      · have hb : (k == m) = false := beq_eq_false_iff_ne.mpr (fun e => hmk e.symm)
        simp [setAttrList, List.find?, hbkn, hb, ih]

theorem lookupAttr_setattr (inst : Instance) (n m : String) (a : Attr) :
    lookupAttr (inst.setattr n a) m
      = if m = n then some a else lookupAttr inst m := by
  simpa [lookupAttr, Instance.setattr] using find_setAttrList inst.attrs n m a

theorem lookupAttr_setattr_self (inst : Instance) (n : String) (a : Attr) :
    lookupAttr (inst.setattr n a) n = some a := by
  simp [lookupAttr_setattr]

theorem lookupAttr_setattr_ne (inst : Instance) (n m : String) (a : Attr)
    (h : m ≠ n) : lookupAttr (inst.setattr n a) m = lookupAttr inst m := by
  simp [lookupAttr_setattr, h]

theorem modelLabel_setattr (inst : Instance) (n : String) (a : Attr) :
    (inst.setattr n a).modelLabel = inst.modelLabel := rfl

theorem metaFieldNames_setattr (inst : Instance) (n : String) (a : Attr) :
    (inst.setattr n a).metaFieldNames = inst.metaFieldNames := rfl

theorem aritySearch_append (xs ys : List Char) (h : aritySearch ys = true) :
    aritySearch (xs ++ ys) = true := by
  induction xs with
  | nil => simpa using h
  | cons c cs ih => simp [aritySearch, ih]

theorem arityMessageMatch_append (nm s : String)
    (h : aritySearch s.toList = true) :
    arityMessageMatch (nm ++ s) = true := by
  have hd : (nm ++ s).toList = nm.toList ++ s.toList := String.data_append nm s
  rw [arityMessageMatch, hd]
  exact aritySearch_append _ _ h


theorem tooMany_one_two (nm : String) :
    tooManyMsg nm 1 2 = nm ++ "() takes 1 positional argument but 2 were given" := by
  simp only [tooManyMsg, plural, String.append_assoc]
  rfl

theorem tooMany_two_three (nm : String) :
    tooManyMsg nm 2 3 = nm ++ "() takes 2 positional arguments but 3 were given" := by
  simp only [tooManyMsg, plural, String.append_assoc]
  rfl

theorem arityMatch_tooMany_one_two (nm : String) :
    arityMessageMatch (tooManyMsg nm 1 2) = true := by
  rw [tooMany_one_two]
  exact arityMessageMatch_append _ _ (by decide)

theorem arityMatch_tooMany_two_three (nm : String) :
    arityMessageMatch (tooManyMsg nm 2 3) = true := by
  rw [tooMany_two_three]
  exact arityMessageMatch_append _ _ (by decide)

theorem call_cleaner_hit (c : Fn) (args : List Val) (inst : Instance) (a : Attr)
    (h1 : lookupAttr inst c.name = some a) (h2 : isPyNone a = false) :
    call_cleaner c args inst = callAttr a args := by
  simp [call_cleaner, h1, h2]

theorem call_cleaner_miss (c : Fn) (args : List Val) (inst : Instance)
    (h : missingOrNone inst c) :
    call_cleaner c args inst
      = match callFn c (Val.instRef :: args) with
        | .ok v => .ok v
        | .error (Exc.typeError msg) =>
          if !arityMessageMatch msg then .error (Exc.typeError msg)
          else callFn c args
        | .error e => .error e := by
  have h2 : isPyNone ((lookupAttr inst c.name).getD (Attr.val Val.none)) = true := h
  simp [call_cleaner, h2]

theorem call_cleaner_miss_ok (c : Fn) (args : List Val) (inst : Instance) (v : Val)
    (h : missingOrNone inst c) (h2 : callFn c (Val.instRef :: args) = .ok v) :
    call_cleaner c args inst = .ok v := by
  rw [call_cleaner_miss c args inst h, h2]

theorem call_cleaner_miss_match (c : Fn) (args : List Val) (inst : Instance)
    (m : String) (h : missingOrNone inst c)
    (h2 : callFn c (Val.instRef :: args) = .error (Exc.typeError m))
    (h3 : arityMessageMatch m = true) :
    call_cleaner c args inst = callFn c args := by
  rw [call_cleaner_miss c args inst h, h2]
  simp [h3]

theorem call_cleaner_miss_nomatch (c : Fn) (args : List Val) (inst : Instance)
    (m : String) (h : missingOrNone inst c)
    (h2 : callFn c (Val.instRef :: args) = .error (Exc.typeError m))
    (h3 : arityMessageMatch m = false) :
    call_cleaner c args inst = .error (Exc.typeError m) := by
  rw [call_cleaner_miss c args inst h, h2]
  simp [h3]

theorem call_cleaner_miss_other (c : Fn) (args : List Val) (inst : Instance)
    (e : Exc) (h : missingOrNone inst c)
    (h2 : callFn c (Val.instRef :: args) = .error e)
    (h3 : ∀ m, e ≠ Exc.typeError m) :
    call_cleaner c args inst = .error e := by
  rw [call_cleaner_miss c args inst h, h2]
  cases e with
  | typeError m => exact absurd rfl (h3 m)
  | attributeError m => rfl
  | keyError k => rfl
  | valueError m => rfl
  | configurationError a b cc => rfl

theorem call_cleaner_plain_one (c : Fn) (v : Val) (inst : Instance)
    (hmiss : missingOrNone inst c) (hp : c.params = 1) :
    call_cleaner c [v] inst = c.body [v] := by
  have h1 : callFn c [Val.instRef, v]
      = .error (.typeError (tooManyMsg c.name 1 2)) := by
    simp [callFn, hp]
  have h2 := arityMatch_tooMany_one_two c.name
  rw [call_cleaner_miss_match c [v] inst _ hmiss h1 h2]
  simp [callFn, hp]

theorem call_cleaner_plain_two (c : Fn) (v w : Val) (inst : Instance)
    (hmiss : missingOrNone inst c) (hp : c.params = 2) :
    call_cleaner c [v, w] inst = c.body [v, w] := by
  have h1 : callFn c [Val.instRef, v, w]
      = .error (.typeError (tooManyMsg c.name 2 3)) := by
    simp [callFn, hp]
  have h2 := arityMatch_tooMany_two_three c.name
  rw [call_cleaner_miss_match c [v, w] inst _ hmiss h1 h2]
  simp [callFn, hp]

theorem gmfv_fails (inst : Instance) (name : String)
    (h : pyEq (attrToVal ((lookupAttr inst name).getD (Attr.val Val.noValueClass)))
          Val.noValueClass = true) :
    get_model_field_value inst name = .error (.attributeError (noFieldMsg name)) := by
  simp [get_model_field_value, h]

theorem gmfv_none (inst : Instance) (name : String)
    (h : lookupAttr inst name = Option.none) :
    get_model_field_value inst name = .error (.attributeError (noFieldMsg name)) := by
  simp [get_model_field_value, h, attrToVal, pyEq]

theorem singleHandler_read (ml f : String) (c : Fn) (inst : Instance) (v : Val)
    (h : get_model_field_value inst f = .ok v) :
    singleHandler ml f c inst
      = (call_cleaner c [v] inst).map (fun cv => inst.setattr f (Attr.val cv)) := by
  cases hc : call_cleaner c [v] inst <;>
    simp [singleHandler, h, hc, Except.map]

theorem singleHandler_config (ml f : String) (c : Fn) (inst : Instance)
    (h : pyEq (attrToVal ((lookupAttr inst f).getD (Attr.val Val.noValueClass)))
          Val.noValueClass = true) :
    singleHandler ml f c inst = .error (.configurationError ml f c.name) := by
  simp [singleHandler, gmfv_fails inst f h]

theorem contextHandler_read (ml f : String) (c : Fn) (inst : Instance)
    (ctx : List (String × Val)) (v : Val)
    (h1 : buildContext inst = .ok ctx) (h2 : dictGet ctx f = some v) :
    contextHandler ml f c inst
      = (call_cleaner c [v, Val.dict ctx] inst).map
          (fun cv => inst.setattr f (Attr.val cv)) := by
  cases hc : call_cleaner c [v, Val.dict ctx] inst <;>
    simp [contextHandler, h1, h2, hc, Except.map, Bind.bind, Except.bind]

theorem contextHandler_config (ml f : String) (c : Fn) (inst : Instance)
    (ctx : List (String × Val))
    (h1 : buildContext inst = .ok ctx) (h2 : dictGet ctx f = Option.none) :
    contextHandler ml f c inst = .error (.configurationError ml f c.name) := by
  simp [contextHandler, h1, h2, Bind.bind, Except.bind]

theorem dictGet_insert (d : List (String × Val)) (n k : String) (v : Val) :
    dictGet (dictInsert d n v) k
      = if k = n then some v else dictGet d k := by
  induction d with
  | nil =>
    by_cases h : k = n
    · subst h
      simp [dictInsert, dictGet, List.find?]
    · have hb : (n == k) = false := beq_eq_false_iff_ne.mpr (fun e => h e.symm)
      simp [dictInsert, dictGet, List.find?, hb, h]
  | cons kv rest ih =>
    obtain ⟨a, w⟩ := kv
    by_cases han : a = n
    · subst han
      by_cases hka : k = a
      · subst hka
        simp [dictInsert, dictGet, List.find?]
      · have hb : (a == k) = false := beq_eq_false_iff_ne.mpr (fun e => hka e.symm)
        simp [dictInsert, dictGet, List.find?, hb, hka]
    · have hban : (a == n) = false := beq_eq_false_iff_ne.mpr han
      by_cases hka : k = a
      · subst hka
        have hkn : ¬ k = n := han
        simp [dictInsert, dictGet, List.find?, hban, hkn]
      · have hb : (a == k) = false := beq_eq_false_iff_ne.mpr (fun e => hka e.symm)
        have ih2 := ih
        simp only [dictGet, List.find?] at ih2 ⊢
        simp [dictInsert, hban, hb, ih2]

theorem dictGet_insert_self (d : List (String × Val)) (n : String) (v : Val) :
    dictGet (dictInsert d n v) n = some v := by
  simp [dictGet_insert]

theorem dictGet_insert_ne (d : List (String × Val)) (n k : String) (v : Val)
    (h : k ≠ n) : dictGet (dictInsert d n v) k = dictGet d k := by
  simp [dictGet_insert, h]

theorem bc_go_untouched (inst : Instance) (k : String) :
    ∀ (names : List String) (acc ctx : List (String × Val)),
      names.foldlM
        (fun ctx name => (get_model_field_value inst name).map (dictInsert ctx name))
        acc = .ok ctx →
      k ∉ names → dictGet ctx k = dictGet acc k := by
  intro names
  induction names with
  | nil =>
    intro acc ctx h _
    simp [List.foldlM, pure, Except.pure] at h
    rw [h]
  | cons n ns ih =>
    intro acc ctx h hk
    have hk1 : k ≠ n ∧ k ∉ ns := by simpa [List.mem_cons, not_or] using hk
    rw [List.foldlM_cons] at h
    cases hg : get_model_field_value inst n with
    | error e =>
      rw [hg] at h
      simp [Except.map, Bind.bind, Except.bind] at h
    | ok v =>
      rw [hg] at h
      simp only [Except.map, Bind.bind, Except.bind] at h
      rw [ih _ _ h hk1.2, dictGet_insert_ne _ _ _ _ hk1.1]

theorem bc_go_covers (inst : Instance) :
    ∀ (names : List String) (acc ctx : List (String × Val)),
      names.foldlM
        (fun ctx name => (get_model_field_value inst name).map (dictInsert ctx name))
        acc = .ok ctx →
      ∀ n ∈ names, ∃ v, get_model_field_value inst n = .ok v ∧ dictGet ctx n = some v := by
  intro names
  induction names with
  | nil => intro acc ctx _ n hn; simp at hn
  | cons m ms ih =>
    intro acc ctx h n hn
    rw [List.foldlM_cons] at h
    cases hg : get_model_field_value inst m with
    | error e =>
      rw [hg] at h
      simp [Except.map, Bind.bind, Except.bind] at h
    | ok w =>
      rw [hg] at h
      simp only [Except.map, Bind.bind, Except.bind] at h
      rcases List.mem_cons.mp hn with he | hm
      · subst he
        by_cases hms : n ∈ ms
        · exact ih _ _ h n hms
        · refine ⟨w, hg, ?_⟩
          rw [bc_go_untouched inst n ms _ _ h hms, dictGet_insert_self]
      · exact ih _ _ h n hm

theorem sendPreSave_cons_run (r : Registration) (rest : List Registration)
    (inst i1 : Instance) (hl : r.modelLabel = inst.modelLabel)
    (h : runHandler r inst = .ok i1) :
    sendPreSave (r :: rest) inst = sendPreSave rest i1 := by
  have hb : (r.modelLabel == inst.modelLabel) = true := beq_iff_eq.mpr hl
  simp [sendPreSave, hb, h]

theorem getFieldCleaner_fn (inst : Instance) (g : String) (fn0 : Fn)
    (h : getFieldCleaner inst g = some (Attr.fn fn0)) :
    lookupAttr inst ("clean_" ++ g) = some (Attr.fn fn0) := by
  rw [getFieldCleaner] at h
  cases hl : lookupAttr inst ("clean_" ++ g) with
  | none => rw [hl] at h; simp at h
  | some fc =>
    rw [hl] at h
    by_cases hb : fc.truthy && !fc.isCallable
    · simp [hb] at h
    · simp [hb] at h
      rw [h]

theorem cleanFieldsStep_shape (inst i2 : Instance) (g : String)
    (h : cleanFieldsStep inst g = .ok i2) :
    i2 = inst ∨ ∃ fn0 v, lookupAttr inst ("clean_" ++ g) = some (Attr.fn fn0)
      ∧ i2 = inst.setattr g (Attr.val v) := by
  rw [cleanFieldsStep] at h
  cases hgc : getFieldCleaner inst g with
  | none =>
    rw [hgc] at h
    simp at h
    exact Or.inl h.symm
  | some a =>
    rw [hgc] at h
    by_cases ht : a.truthy
    · simp [ht] at h
      cases a with
      | val v => simp [callAttr, Except.map] at h
      | fn fn0 =>
        simp only [callAttr] at h
        cases hcf : callFn fn0 [] with
        | error e => rw [hcf] at h; simp [Except.map] at h
        | ok v =>
          rw [hcf] at h
          simp [Except.map] at h
          exact Or.inr ⟨fn0, v, getFieldCleaner_fn inst g fn0 hgc, h.symm⟩
    · simp [ht] at h
      exact Or.inl h.symm

theorem usableCleaner_setattr_val (inst : Instance) (f g : String) (v : Val)
    (hno : usableCleaner inst f = false) :
    usableCleaner (inst.setattr g (Attr.val v)) f = false := by
  by_cases hq : ("clean_" ++ f) = g
  · have hl : lookupAttr (inst.setattr g (Attr.val v)) ("clean_" ++ f)
        = some (Attr.val v) := by
      rw [hq]; exact lookupAttr_setattr_self inst g (Attr.val v)
    rw [usableCleaner, getFieldCleaner, hl]
    by_cases hv : Val.truthy v
    · simp [Attr.truthy, Attr.isCallable, hv]
    · simp [Attr.truthy, Attr.isCallable, hv]
  · have hl : lookupAttr (inst.setattr g (Attr.val v)) ("clean_" ++ f)
        = lookupAttr inst ("clean_" ++ f) :=
      lookupAttr_setattr_ne inst g ("clean_" ++ f) (Attr.val v) hq
    rw [usableCleaner, getFieldCleaner, hl]
    rw [usableCleaner, getFieldCleaner] at hno
    exact hno

theorem cleanFieldsStep_frame (inst i2 : Instance) (f g : String)
    (hno : usableCleaner inst f = false)
    (h : cleanFieldsStep inst g = .ok i2) :
    lookupAttr i2 f = lookupAttr inst f ∧ usableCleaner i2 f = false := by
  rcases cleanFieldsStep_shape inst i2 g h with he | ⟨fn0, v, hl, he⟩
  · rw [he]; exact ⟨rfl, hno⟩
  · have hgf : g ≠ f := by
      intro e
      subst e
      rw [usableCleaner, getFieldCleaner, hl] at hno
      simp [Attr.truthy, Attr.isCallable] at hno
    subst he
    refine ⟨lookupAttr_setattr_ne inst g f (Attr.val v) (fun e => hgf e.symm), ?_⟩
    exact usableCleaner_setattr_val inst f g v hno

theorem csf_go_frame (f : String) :
    ∀ (names : List String) (inst i2 : Instance),
      usableCleaner inst f = false →
      names.foldlM cleanFieldsStep inst = .ok i2 →
      lookupAttr i2 f = lookupAttr inst f := by
  intro names
  induction names with
  | nil =>
    intro inst i2 _ h
    simp [List.foldlM, pure, Except.pure] at h
    rw [h]
  | cons g gs ih =>
    intro inst i2 hno h
    rw [List.foldlM_cons] at h
    cases hs : cleanFieldsStep inst g with
    | error e =>
      rw [hs] at h
      simp [Bind.bind, Except.bind] at h
    | ok i1 =>
      rw [hs] at h
      simp only [Bind.bind, Except.bind] at h
      obtain ⟨hlk, hus⟩ := cleanFieldsStep_frame inst i1 f g hno hs
      rw [ih i1 i2 hus h, hlk]

theorem singleHandler_ok (ml f : String) (c : Fn) (inst : Instance) (v V : Val)
    (h1 : get_model_field_value inst f = .ok v)
    (h2 : call_cleaner c [v] inst = .ok V) :
    singleHandler ml f c inst = .ok (inst.setattr f (Attr.val V)) := by
  rw [singleHandler_read ml f c inst v h1, h2]
  rfl

theorem readVal_setattr (inst : Instance) (f : String) (V : Val) :
    readVal (inst.setattr f (Attr.val V)) f = some V := by
  rw [readVal, lookupAttr_setattr_self]
  rfl

/-!
Fixtures used by the witnesses and counterexamples: small concrete
instances and cleaners.
-/

/-- A model instance with one integer field and no cleaner attributes. -/
def wInst : Instance :=
  { modelLabel := "app.M", metaFieldNames := ["some_field"],
    attrs := [("some_field", Attr.val (Val.int 5))] }

/-- A plain function cleaner adding one to an integer. -/
def wFn : Fn :=
  { name := "w_cleaner", params := 1,
    body := fun args =>
      match args with
      | [Val.int n] => .ok (Val.int (n + 1))
      | _ => .error (.valueError "unexpected arguments") }

/-- A zero-parameter model-method cleaner returning 42. -/
def wC1zFn : Fn :=
  { name := "clean_some_field", params := 0, body := fun _ => .ok (Val.int 42) }

/-- An instance whose conventionally named cleaner method takes no
parameters. -/
def wC1zInst : Instance :=
  { modelLabel := "app.M", metaFieldNames := ["some_field"],
    attrs := [("some_field", Attr.val (Val.int 5)),
              ("clean_some_field", Attr.fn wC1zFn)] }

/-- A cleaner registered for a name that is an instance attribute but not
a model field. -/
def c2Fn : Fn := pureCleaner "clean_nickname" (fun v => v)

/-- An instance whose model fields are only id, but which carries a
non-field attribute named nickname. -/
def c2Inst : Instance :=
  { modelLabel := "app.M", metaFieldNames := ["id"],
    attrs := [("id", Attr.val (Val.int 1)),
              ("nickname", Attr.val (Val.str "Bob"))] }

/-- A two-parameter cleaner whose body raises a TypeError whose text
happens to match the arity pattern. -/
def poisonFn : Fn :=
  { name := "poison", params := 2,
    body := fun _ => .error (.typeError "this function takes 2 arguments") }

/-- A bound-method cleaner whose body raises a ValueError. -/
def bErrFn : Fn :=
  { name := "b_err", params := 1, body := fun _ => .error (.valueError "boom") }

/-- An instance carrying the erroring bound method b_err. -/
def bErrInst : Instance :=
  { modelLabel := "app.M", metaFieldNames := ["f"],
    attrs := [("b_err", Attr.fn bErrFn), ("f", Attr.val (Val.int 5))] }

/-- A cleaner whose body raises a TypeError with a text that does not
match the arity pattern. -/
def nmFn : Fn :=
  { name := "nm_err", params := 2,
    body := fun _ => .error (.typeError "unsupported operand type") }

/-- A cleaner whose body raises a ValueError (not a TypeError). -/
def vErrFn : Fn :=
  { name := "v_err", params := 2, body := fun _ => .error (.valueError "boom") }

/-- A bound-method cleaner doubling an integer. -/
def bOkFn : Fn :=
  { name := "b_ok", params := 1,
    body := fun args =>
      match args with
      | [Val.int n] => .ok (Val.int (n * 2))
      | _ => .error (.valueError "unexpected arguments") }

/-- An instance carrying the bound method b_ok. -/
def bOkInst : Instance :=
  { modelLabel := "app.M", metaFieldNames := ["f"],
    attrs := [("b_ok", Attr.fn bOkFn), ("f", Attr.val (Val.int 5))] }

/-- A cleaner taking the instance explicitly and adding seven. -/
def plainOkFn : Fn :=
  { name := "p_ok", params := 2,
    body := fun args =>
      match args with
      | [Val.instRef, Val.int n] => .ok (Val.int (n + 7))
      | _ => .error (.valueError "unexpected arguments") }

/-- The cleaner of the C4 counterexample: it takes the instance
explicitly, while the instance carries an attribute of the same name
whose value is None. -/
def c4Fn : Fn :=
  { name := "c4", params := 2,
    body := fun args =>
      match args with
      | [Val.instRef, Val.int n] => .ok (Val.int (n + 7))
      | _ => .error (.valueError "unexpected arguments") }

/-- An instance whose attribute named like the c4 cleaner is None. -/
def c4Inst : Instance :=
  { modelLabel := "app.M", metaFieldNames := ["f"],
    attrs := [("c4", Attr.val Val.none), ("f", Attr.val (Val.int 5))] }

/-- A conventionally named model-method cleaner that expects the current
field value as its parameter and echoes it. -/
def echoFn : Fn :=
  { name := "clean_some_field", params := 1,
    body := fun args =>
      match args with
      | [v] => .ok v
      | _ => .error (.valueError "unexpected arguments") }

/-- An instance whose conventionally named cleaner method expects one
parameter. -/
def c5Inst : Instance :=
  { modelLabel := "app.M", metaFieldNames := ["some_field"],
    attrs := [("some_field", Attr.val (Val.int 5)),
              ("clean_some_field", Attr.fn echoFn)] }

/-!
Claims
-/

/-- C1: for every model instance and every field with a registered
cleaner, when the cleaner invocation returns V, the handler (and a save
built on it) assigns V onto the field before the underlying persist
proceeds; likewise for a cleaner located by clean_single_fields. -/
theorem claim_C1 :
    (∀ (ml f : String) (c : Fn) (inst : Instance) (v V : Val),
      get_model_field_value inst f = .ok v →
      call_cleaner c [v] inst = .ok V →
      singleHandler ml f c inst = .ok (inst.setattr f (Attr.val V))
        ∧ readVal (inst.setattr f (Attr.val V)) f = some V)
    ∧ (∀ (ml f : String) (c : Fn) (inst i1 : Instance) (v V : Val),
      clean_single_fields inst = .ok i1 →
      i1.modelLabel = ml →
      get_model_field_value i1 f = .ok v →
      call_cleaner c [v] i1 = .ok V →
      save [Registration.single ml f c] inst
          = .ok (i1.setattr f (Attr.val V), true)
        ∧ readVal (i1.setattr f (Attr.val V)) f = some V)
    ∧ (∀ (f : String) (inst : Instance) (a : Attr) (V : Val),
      get_model_field_names inst = [f] →
      getFieldCleaner inst f = some a →
      a.truthy = true →
      callAttr a [] = .ok V →
      clean_single_fields inst = .ok (inst.setattr f (Attr.val V))
        ∧ readVal (inst.setattr f (Attr.val V)) f = some V) := by
  refine ⟨?_, ?_, ?_⟩
  · intro ml f c inst v V h1 h2
    exact ⟨singleHandler_ok ml f c inst v V h1 h2, readVal_setattr inst f V⟩
  · intro ml f c inst i1 v V hc hl hg hcc
    have hh := singleHandler_ok ml f c i1 v V hg hcc
    have hlb : (Registration.single ml f c).modelLabel = i1.modelLabel := by
      simp [Registration.modelLabel, hl]
    have hs : sendPreSave [Registration.single ml f c] i1
        = .ok (i1.setattr f (Attr.val V)) := by
      rw [sendPreSave_cons_run _ _ _ _ hlb hh]
      rfl
    refine ⟨?_, readVal_setattr i1 f V⟩
    simp [save, hc, hs, Bind.bind, Except.bind, pure, Except.pure]
  · intro f inst a V hn hgc ht hca
    have hstep : cleanFieldsStep inst f = .ok (inst.setattr f (Attr.val V)) := by
      rw [cleanFieldsStep, hgc]
      simp [ht, hca, Except.map]
    refine ⟨?_, readVal_setattr inst f V⟩
    rw [clean_single_fields, hn]
    simp [List.foldlM, hstep, Bind.bind, Except.bind, pure, Except.pure]

/-- Witness for C1 at concrete inputs. -/
theorem claim_C1_witness :
    (singleHandler "app.M" "some_field" wFn wInst
        = .ok (wInst.setattr "some_field" (Attr.val (Val.int 6)))
      ∧ readVal (wInst.setattr "some_field" (Attr.val (Val.int 6))) "some_field"
        = some (Val.int 6))
    ∧ (save [Registration.single "app.M" "some_field" wFn] wInst
        = .ok (wInst.setattr "some_field" (Attr.val (Val.int 6)), true)
      ∧ readVal (wInst.setattr "some_field" (Attr.val (Val.int 6))) "some_field"
        = some (Val.int 6))
    ∧ (clean_single_fields wC1zInst
        = .ok (wC1zInst.setattr "some_field" (Attr.val (Val.int 42)))
      ∧ readVal (wC1zInst.setattr "some_field" (Attr.val (Val.int 42))) "some_field"
        = some (Val.int 42)) :=
  ⟨claim_C1.1 "app.M" "some_field" wFn wInst (Val.int 5) (Val.int 6) rfl rfl,
   claim_C1.2.1 "app.M" "some_field" wFn wInst wInst (Val.int 5) (Val.int 6)
     rfl rfl rfl rfl,
   claim_C1.2.2 "some_field" wC1zInst (Attr.fn wC1zFn) (Val.int 42)
     rfl rfl rfl rfl⟩

/-- C2 counterexample: a cleans_field receiver registered for a name
that is not a model field but is an instance attribute completes without
raising a configuration error. -/
theorem claim_C2_counterexample :
    "nickname" ∉ c2Inst.metaFieldNames
    ∧ (runHandler (Registration.single "app.M" "nickname" c2Fn) c2Inst).isOk = true
    ∧ isConfigError (runHandler (Registration.single "app.M" "nickname" c2Fn) c2Inst)
        = false :=
  ⟨by decide, rfl, rfl⟩

/-- C2 amended: a cleans_field receiver raises the configuration error
(naming model label, field name and cleaner) exactly when the attribute
lookup fails, that is when the looked-up value compares equal to NoValue;
a cleans_field_with_context receiver raises it when the name is not among
the model field names, provided the context snapshot builds. -/
theorem claim_C2 :
    (∀ (ml f : String) (c : Fn) (inst : Instance),
      pyEq (attrToVal ((lookupAttr inst f).getD (Attr.val Val.noValueClass)))
          Val.noValueClass = true →
      singleHandler ml f c inst = .error (.configurationError ml f c.name))
    ∧ (∀ (ml f : String) (c : Fn) (inst : Instance) (ctx : List (String × Val)),
      buildContext inst = .ok ctx →
      f ∉ get_model_field_names inst →
      contextHandler ml f c inst = .error (.configurationError ml f c.name)) := by
  constructor
  · intro ml f c inst h
    exact singleHandler_config ml f c inst h
  · intro ml f c inst ctx h1 h2
    have h1b : (get_model_field_names inst).foldlM
        (fun ctx name => (get_model_field_value inst name).map (dictInsert ctx name))
        [] = .ok ctx := h1
    have hg : dictGet ctx f = Option.none := by
      rw [bc_go_untouched inst f (get_model_field_names inst) [] ctx h1b h2]
      rfl
    exact contextHandler_config ml f c inst ctx h1 hg

/-- Witness for the amended C2 at concrete inputs. -/
theorem claim_C2_witness :
    singleHandler "app.M" "nope" wFn wInst
        = .error (.configurationError "app.M" "nope" "w_cleaner")
    ∧ contextHandler "app.M" "nope" wFn wInst
        = .error (.configurationError "app.M" "nope" "w_cleaner") :=
  ⟨claim_C2.1 "app.M" "nope" wFn wInst rfl,
   claim_C2.2 "app.M" "nope" wFn wInst [("some_field", Val.int 5)] rfl (by decide)⟩

/-- C3 counterexample: a TypeError raised from within the cleaner whose
text matches the arity pattern is not propagated unchanged; the dispatch
retries the cleaner under another convention and the caller sees a
different TypeError. -/
theorem claim_C3_counterexample :
    call_cleaner poisonFn [Val.int 5] wInst
        = .error (.typeError "poison() missing 1 required positional argument")
    ∧ poisonFn.body [Val.instRef, Val.int 5]
        = .error (.typeError "this function takes 2 arguments")
    ∧ ("poison() missing 1 required positional argument" : String)
        ≠ "this function takes 2 arguments" :=
  ⟨rfl, rfl, by decide⟩

/-- C3 amended: call_cleaner propagates cleaner-raised exceptions
unchanged, except that a TypeError raised during the instance-prepended
call whose text matches the arity pattern is caught and followed by a
retry of the cleaner as a plain call. -/
theorem claim_C3 :
    (∀ (c : Fn) (args : List Val) (inst : Instance) (a : Attr) (e : Exc),
      lookupAttr inst c.name = some a → isPyNone a = false →
      callAttr a args = .error e →
      call_cleaner c args inst = .error e)
    ∧ (∀ (c : Fn) (args : List Val) (inst : Instance) (m : String),
      missingOrNone inst c →
      callFn c (Val.instRef :: args) = .error (.typeError m) →
      arityMessageMatch m = false →
      call_cleaner c args inst = .error (.typeError m))
    ∧ (∀ (c : Fn) (args : List Val) (inst : Instance) (e : Exc),
      missingOrNone inst c →
      callFn c (Val.instRef :: args) = .error e →
      (∀ m, e ≠ Exc.typeError m) →
      call_cleaner c args inst = .error e)
    ∧ (∀ (c : Fn) (args : List Val) (inst : Instance) (m : String),
      missingOrNone inst c →
      callFn c (Val.instRef :: args) = .error (.typeError m) →
      arityMessageMatch m = true →
      call_cleaner c args inst = callFn c args) := by
  refine ⟨?_, ?_, ?_, ?_⟩
  · intro c args inst a e h1 h2 h3
    rw [call_cleaner_hit c args inst a h1 h2, h3]
  · intro c args inst m h h2 h3
    exact call_cleaner_miss_nomatch c args inst m h h2 h3
  · intro c args inst e h h2 h3
    exact call_cleaner_miss_other c args inst e h h2 h3
  · intro c args inst m h h2 h3
    exact call_cleaner_miss_match c args inst m h h2 h3

/-- Witness for the amended C3 at concrete inputs. -/
theorem claim_C3_witness :
    call_cleaner bErrFn [Val.int 5] bErrInst = .error (.valueError "boom")
    ∧ call_cleaner nmFn [Val.int 5] wInst
        = .error (.typeError "unsupported operand type")
    ∧ call_cleaner vErrFn [Val.int 5] wInst = .error (.valueError "boom")
    ∧ call_cleaner poisonFn [Val.int 5] bOkInst = callFn poisonFn [Val.int 5] :=
  ⟨claim_C3.1 bErrFn [Val.int 5] bErrInst (Attr.fn bErrFn) (.valueError "boom")
     rfl rfl rfl,
   claim_C3.2.1 nmFn [Val.int 5] wInst "unsupported operand type" rfl rfl rfl,
   claim_C3.2.2.1 vErrFn [Val.int 5] wInst (.valueError "boom") rfl rfl
     (fun _ h => Exc.noConfusion h),
   claim_C3.2.2.2 poisonFn [Val.int 5] bOkInst "this function takes 2 arguments"
     rfl rfl rfl⟩

/-- C4 counterexample: the instance has an attribute named like the
cleaner, yet convention (1) is not used: because the attribute is None,
the dispatch proceeds with the instance-prepended call and succeeds,
whereas calling the attribute would have raised a TypeError. -/
theorem claim_C4_counterexample :
    lookupAttr c4Inst "c4" = some (Attr.val Val.none)
    ∧ callAttr (Attr.val Val.none) [Val.int 5]
        = .error (.typeError "NoneType object is not callable")
    ∧ call_cleaner c4Fn [Val.int 5] c4Inst = .ok (Val.int 12) :=
  ⟨rfl, rfl, rfl⟩

/-- C4 amended: the conventions are tried in this order: (1) when the
instance has an attribute named like the cleaner whose value is not
None, that attribute is called with the given arguments and its outcome
is final; (2) otherwise the cleaner is called with the instance
prepended; (3) when call (2) raises a TypeError whose text matches the
arity pattern, the cleaner is called with the arguments alone, while any
other TypeError from call (2) propagates. -/
theorem claim_C4 :
    (∀ (c : Fn) (args : List Val) (inst : Instance) (a : Attr),
      lookupAttr inst c.name = some a → isPyNone a = false →
      call_cleaner c args inst = callAttr a args)
    ∧ (∀ (c : Fn) (args : List Val) (inst : Instance) (v : Val),
      missingOrNone inst c →
      callFn c (Val.instRef :: args) = .ok v →
      call_cleaner c args inst = .ok v)
    ∧ (∀ (c : Fn) (args : List Val) (inst : Instance) (m : String),
      missingOrNone inst c →
      callFn c (Val.instRef :: args) = .error (.typeError m) →
      arityMessageMatch m = true →
      call_cleaner c args inst = callFn c args)
    ∧ (∀ (c : Fn) (args : List Val) (inst : Instance) (m : String),
      missingOrNone inst c →
      callFn c (Val.instRef :: args) = .error (.typeError m) →
      arityMessageMatch m = false →
      call_cleaner c args inst = .error (.typeError m)) := by
  refine ⟨?_, ?_, ?_, ?_⟩
  · intro c args inst a h1 h2
    exact call_cleaner_hit c args inst a h1 h2
  · intro c args inst v h h2
    exact call_cleaner_miss_ok c args inst v h h2
  · intro c args inst m h h2 h3
    exact call_cleaner_miss_match c args inst m h h2 h3
  · intro c args inst m h h2 h3
    exact call_cleaner_miss_nomatch c args inst m h h2 h3

/-- Witness for the amended C4 at concrete inputs. -/
theorem claim_C4_witness :
    call_cleaner bOkFn [Val.int 5] bOkInst = callAttr (Attr.fn bOkFn) [Val.int 5]
    ∧ call_cleaner plainOkFn [Val.int 5] wInst = .ok (Val.int 12)
    ∧ call_cleaner (pureCleaner "a1" (fun v => v)) [Val.int 5] wInst
        = callFn (pureCleaner "a1" (fun v => v)) [Val.int 5]
    ∧ call_cleaner nmFn [Val.int 7] wInst
        = .error (.typeError "unsupported operand type") :=
  ⟨claim_C4.1 bOkFn [Val.int 5] bOkInst (Attr.fn bOkFn) rfl rfl,
   claim_C4.2.1 plainOkFn [Val.int 5] wInst (Val.int 12) rfl rfl,
   claim_C4.2.2.1 (pureCleaner "a1" (fun v => v)) [Val.int 5] wInst
     (tooManyMsg "a1" 1 2) rfl rfl (arityMatch_tooMany_one_two "a1"),
   claim_C4.2.2.2 nmFn [Val.int 7] wInst "unsupported operand type" rfl rfl rfl⟩

/-- C5 counterexample: clean_single_fields invokes the located
model-method cleaner with no arguments, so a cleaner declared to accept
the current field value raises a missing-argument TypeError, although
calling it with the current value would have succeeded. -/
theorem claim_C5_counterexample :
    clean_single_fields c5Inst
        = .error (.typeError
            "clean_some_field() missing 1 required positional argument")
    ∧ callFn echoFn [Val.int 5] = .ok (Val.int 5) :=
  ⟨rfl, rfl⟩

/-- C5 amended: the decorator receivers pass the current field value (and
the context cleaners additionally the context snapshot) to the cleaner;
the legacy top-level save passes the current field value to the located
cleaner; but clean_single_fields invokes the located cleaner with no
arguments. -/
theorem claim_C5 :
    (∀ (ml f : String) (c : Fn) (inst : Instance) (v : Val),
      get_model_field_value inst f = .ok v →
      singleHandler ml f c inst
        = (call_cleaner c [v] inst).map (fun cv => inst.setattr f (Attr.val cv)))
    ∧ (∀ (ml f : String) (c : Fn) (inst : Instance)
        (ctx : List (String × Val)) (v : Val),
      buildContext inst = .ok ctx → dictGet ctx f = some v →
      contextHandler ml f c inst
        = (call_cleaner c [v, Val.dict ctx] inst).map
            (fun cv => inst.setattr f (Attr.val cv)))
    ∧ (∀ (inst : Instance) (f : String) (a : Attr),
      getFieldCleaner inst f = some a → a.truthy = true →
      cleanFieldsStep inst f
        = (callAttr a []).map (fun v => inst.setattr f (Attr.val v)))
    ∧ (∀ (inst : Instance) (f : String) (a fa : Attr),
      getFieldCleaner inst f = some a → a.truthy = true →
      lookupAttr inst f = some fa →
      legacyCleanStep inst f
        = (callAttr a [attrToVal fa]).map
            (fun v => inst.setattr f (Attr.val v))) := by
  refine ⟨?_, ?_, ?_, ?_⟩
  · intro ml f c inst v h
    exact singleHandler_read ml f c inst v h
  · intro ml f c inst ctx v h1 h2
    exact contextHandler_read ml f c inst ctx v h1 h2
  · intro inst f a hgc ht
    rw [cleanFieldsStep, hgc]
    simp [ht]
  · intro inst f a fa hgc ht hfa
    rw [legacyCleanStep, hgc]
    simp [ht, hfa]

/-- Witness for the amended C5 at concrete inputs. -/
theorem claim_C5_witness :
    singleHandler "app.M" "some_field" wFn wInst
        = (call_cleaner wFn [Val.int 5] wInst).map
            (fun cv => wInst.setattr "some_field" (Attr.val cv))
    ∧ contextHandler "app.M" "some_field" wFn wInst
        = (call_cleaner wFn
            [Val.int 5, Val.dict [("some_field", Val.int 5)]] wInst).map
            (fun cv => wInst.setattr "some_field" (Attr.val cv))
    ∧ cleanFieldsStep wC1zInst "some_field"
        = (callAttr (Attr.fn wC1zFn) []).map
            (fun v => wC1zInst.setattr "some_field" (Attr.val v))
    ∧ legacyCleanStep c5Inst "some_field"
        = (callAttr (Attr.fn echoFn) [attrToVal (Attr.val (Val.int 5))]).map
            (fun v => c5Inst.setattr "some_field" (Attr.val v)) :=
  ⟨claim_C5.1 "app.M" "some_field" wFn wInst (Val.int 5) rfl,
   claim_C5.2.1 "app.M" "some_field" wFn wInst [("some_field", Val.int 5)]
     (Val.int 5) rfl rfl,
   claim_C5.2.2.1 wC1zInst "some_field" (Attr.fn wC1zFn) rfl rfl,
   claim_C5.2.2.2 c5Inst "some_field" (Attr.fn echoFn) (Attr.val (Val.int 5))
     rfl rfl rfl⟩

/-- A conventionally named zero-parameter cleaner whose body raises a
ValueError. -/
def badCFn : Fn :=
  { name := "clean_some_field", params := 0,
    body := fun _ => .error (.valueError "boom") }

/-- An instance whose conventionally named cleaner raises. -/
def c6Inst : Instance :=
  { modelLabel := "app.M", metaFieldNames := ["some_field"],
    attrs := [("some_field", Attr.val (Val.int 5)),
              ("clean_some_field", Attr.fn badCFn)] }

/-- C6: when a cleaner raises during save, the exception propagates out
of save and the underlying persist never executes, whether the raise
happens in clean_single_fields or in a registered pre-save receiver. -/
theorem claim_C6 :
    (∀ (regs : List Registration) (inst : Instance) (e : Exc),
      clean_single_fields inst = .error e →
      save regs inst = .error e ∧ persisted (save regs inst) = false)
    ∧ (∀ (regs : List Registration) (inst i1 : Instance) (e : Exc),
      clean_single_fields inst = .ok i1 →
      sendPreSave regs i1 = .error e →
      save regs inst = .error e ∧ persisted (save regs inst) = false) := by
  constructor
  · intro regs inst e h
    have hs : save regs inst = .error e := by
      simp [save, h, Bind.bind, Except.bind]
    exact ⟨hs, by rw [hs]; rfl⟩
  · intro regs inst i1 e h1 h2
    have hs : save regs inst = .error e := by
      simp [save, h1, h2, Bind.bind, Except.bind]
    exact ⟨hs, by rw [hs]; rfl⟩

/-- Witness for C6 at concrete inputs. -/
theorem claim_C6_witness :
    (save [] c6Inst = .error (.valueError "boom")
      ∧ persisted (save [] c6Inst) = false)
    ∧ (save [Registration.single "app.M" "nope" wFn] wInst
        = .error (.configurationError "app.M" "nope" "w_cleaner")
      ∧ persisted (save [Registration.single "app.M" "nope" wFn] wInst) = false) :=
  ⟨claim_C6.1 [] c6Inst (.valueError "boom") rfl,
   claim_C6.2 [Registration.single "app.M" "nope" wFn] wInst wInst
     (.configurationError "app.M" "nope" "w_cleaner") rfl rfl⟩

/-- Integer increment used by the C7 witness. -/
def wAddOne : Val → Val
  | .int n => .int (n + 1)
  | w => w

/-- Integer increment by two used by the C7 witness. -/
def wAddTwo : Val → Val
  | .int n => .int (n + 2)
  | w => w

/-- C7: receivers registered for the same field run in registration
order on each pre-save event, each later one reading the value the
previous one wrote; the dispatch list is fixed at registration time. -/
theorem claim_C7 :
    (∀ (r : Registration) (rest : List Registration) (inst i1 : Instance),
      r.modelLabel = inst.modelLabel → runHandler r inst = .ok i1 →
      sendPreSave (r :: rest) inst = sendPreSave rest i1)
    ∧ (∀ (ml f n1 n2 : String) (g1 g2 : Val → Val) (v : Val) (inst : Instance),
      inst.modelLabel = ml →
      lookupAttr inst f = some (Attr.val v) →
      pyEq v Val.noValueClass = false →
      pyEq (g1 v) Val.noValueClass = false →
      lookupAttr inst n1 = Option.none →
      lookupAttr inst n2 = Option.none →
      sendPreSave [Registration.single ml f (pureCleaner n1 g1),
                   Registration.single ml f (pureCleaner n2 g2)] inst
        = .ok ((inst.setattr f (Attr.val (g1 v))).setattr f
            (Attr.val (g2 (g1 v))))) := by
  constructor
  · intro r rest inst i1 hl h
    exact sendPreSave_cons_run r rest inst i1 hl h
  · intro ml f n1 n2 g1 g2 v inst hml hv hpv hpg hn1 hn2
    have hn2f : n2 ≠ f := by
      intro e
      rw [e, hv] at hn2
      simp at hn2
    have hg1 : get_model_field_value inst f = .ok v := by
      simp [get_model_field_value, hv, attrToVal, hpv]
    have hm1 : missingOrNone inst (pureCleaner n1 g1) := by
      show isPyNone ((lookupAttr inst n1).getD (Attr.val Val.none)) = true
      rw [hn1]
      rfl
    have hcc1 : call_cleaner (pureCleaner n1 g1) [v] inst = .ok (g1 v) := by
      rw [call_cleaner_plain_one _ _ _ hm1 rfl]
      rfl
    have hrun1 : runHandler (Registration.single ml f (pureCleaner n1 g1)) inst
        = .ok (inst.setattr f (Attr.val (g1 v))) :=
      singleHandler_ok ml f _ inst v (g1 v) hg1 hcc1
    have hml1 : (Registration.single ml f (pureCleaner n1 g1)).modelLabel
        = inst.modelLabel := by
      simp [Registration.modelLabel, hml]
    rw [sendPreSave_cons_run _ _ _ _ hml1 hrun1]
    have hv2 : lookupAttr (inst.setattr f (Attr.val (g1 v))) f
        = some (Attr.val (g1 v)) := lookupAttr_setattr_self inst f _
    have hg2 : get_model_field_value (inst.setattr f (Attr.val (g1 v))) f
        = .ok (g1 v) := by
      simp [get_model_field_value, hv2, attrToVal, hpg]
    have hn2b : lookupAttr (inst.setattr f (Attr.val (g1 v))) n2 = Option.none := by
      rw [lookupAttr_setattr_ne inst f n2 _ hn2f]
      exact hn2
    have hm2 : missingOrNone (inst.setattr f (Attr.val (g1 v))) (pureCleaner n2 g2) := by
      show isPyNone ((lookupAttr (inst.setattr f (Attr.val (g1 v))) n2).getD
        (Attr.val Val.none)) = true
      rw [hn2b]
      rfl
    have hcc2 : call_cleaner (pureCleaner n2 g2) [g1 v]
        (inst.setattr f (Attr.val (g1 v))) = .ok (g2 (g1 v)) := by
      rw [call_cleaner_plain_one _ _ _ hm2 rfl]
      rfl
    have hrun2 : runHandler (Registration.single ml f (pureCleaner n2 g2))
        (inst.setattr f (Attr.val (g1 v)))
        = .ok ((inst.setattr f (Attr.val (g1 v))).setattr f
            (Attr.val (g2 (g1 v)))) :=
      singleHandler_ok ml f _ _ (g1 v) (g2 (g1 v)) hg2 hcc2
    have hml2 : (Registration.single ml f (pureCleaner n2 g2)).modelLabel
        = (inst.setattr f (Attr.val (g1 v))).modelLabel := by
      rw [modelLabel_setattr]
      simp [Registration.modelLabel, hml]
    rw [sendPreSave_cons_run _ _ _ _ hml2 hrun2]
    rfl

/-- Witness for C7 at concrete inputs: two cleaners on one field turn 5
into 6 and then 6 into 8, in registration order. -/
theorem claim_C7_witness :
    sendPreSave [Registration.single "app.M" "some_field" wFn] wInst
        = sendPreSave [] (wInst.setattr "some_field" (Attr.val (Val.int 6)))
    ∧ sendPreSave [Registration.single "app.M" "some_field" (pureCleaner "add_one" wAddOne),
                   Registration.single "app.M" "some_field" (pureCleaner "add_two" wAddTwo)]
        wInst
        = .ok ((wInst.setattr "some_field" (Attr.val (Val.int 6))).setattr
            "some_field" (Attr.val (Val.int 8))) :=
  ⟨claim_C7.1 (Registration.single "app.M" "some_field" wFn) [] wInst
     (wInst.setattr "some_field" (Attr.val (Val.int 6))) rfl rfl,
   claim_C7.2 "app.M" "some_field" "add_one" "add_two" wAddOne wAddTwo
     (Val.int 5) wInst rfl rfl rfl rfl rfl rfl⟩

/-- An instance with two integer fields, used by the C8 witness. -/
def c8Inst : Instance :=
  { modelLabel := "app.M", metaFieldNames := ["alpha", "beta"],
    attrs := [("alpha", Attr.val (Val.int 1)), ("beta", Attr.val (Val.int 2))] }

/-- C8: the context receiver builds a fresh mapping holding exactly the
model field names, each bound to the value read at the moment of the
event, and passes the target field value taken from that same snapshot
together with the snapshot to the cleaner. -/
theorem claim_C8 :
    (∀ (inst : Instance) (ctx : List (String × Val)) (n : String),
      buildContext inst = .ok ctx →
      n ∈ get_model_field_names inst →
      dictGet ctx n = (get_model_field_value inst n).toOption
        ∧ (dictGet ctx n).isSome = true)
    ∧ (∀ (inst : Instance) (ctx : List (String × Val)) (k : String),
      buildContext inst = .ok ctx →
      k ∉ get_model_field_names inst →
      dictGet ctx k = Option.none)
    ∧ (∀ (ml f : String) (c : Fn) (inst : Instance)
        (ctx : List (String × Val)) (v : Val),
      buildContext inst = .ok ctx → dictGet ctx f = some v →
      contextHandler ml f c inst
        = (call_cleaner c [v, Val.dict ctx] inst).map
            (fun cv => inst.setattr f (Attr.val cv))) := by
  refine ⟨?_, ?_, ?_⟩
  · intro inst ctx n h1 h2
    have h1b : (get_model_field_names inst).foldlM
        (fun ctx name => (get_model_field_value inst name).map (dictInsert ctx name))
        [] = .ok ctx := h1
    obtain ⟨v, hg, hd⟩ := bc_go_covers inst (get_model_field_names inst) [] ctx h1b n h2
    rw [hd, hg]
    exact ⟨rfl, rfl⟩
  · intro inst ctx k h1 h2
    have h1b : (get_model_field_names inst).foldlM
        (fun ctx name => (get_model_field_value inst name).map (dictInsert ctx name))
        [] = .ok ctx := h1
    rw [bc_go_untouched inst k (get_model_field_names inst) [] ctx h1b h2]
    rfl
  · intro ml f c inst ctx v h1 h2
    exact contextHandler_read ml f c inst ctx v h1 h2

/-- Witness for C8 at concrete inputs. -/
theorem claim_C8_witness :
    (dictGet [("alpha", Val.int 1), ("beta", Val.int 2)] "alpha"
        = (get_model_field_value c8Inst "alpha").toOption
      ∧ (dictGet [("alpha", Val.int 1), ("beta", Val.int 2)] "alpha").isSome = true)
    ∧ dictGet [("alpha", Val.int 1), ("beta", Val.int 2)] "gamma" = Option.none
    ∧ contextHandler "app.M" "alpha" wFn c8Inst
        = (call_cleaner wFn
            [Val.int 1, Val.dict [("alpha", Val.int 1), ("beta", Val.int 2)]]
            c8Inst).map
            (fun cv => c8Inst.setattr "alpha" (Attr.val cv)) :=
  ⟨claim_C8.1 c8Inst [("alpha", Val.int 1), ("beta", Val.int 2)] "alpha"
     rfl (by decide),
   claim_C8.2.1 c8Inst [("alpha", Val.int 1), ("beta", Val.int 2)] "gamma"
     rfl (by decide),
   claim_C8.2.2 "app.M" "alpha" wFn c8Inst
     [("alpha", Val.int 1), ("beta", Val.int 2)] (Val.int 1) rfl rfl⟩

/-- A zero-parameter cleaner for the beta field, used by the C9 witness. -/
def c9Fn : Fn :=
  { name := "clean_beta", params := 0, body := fun _ => .ok (Val.int 9) }

/-- An instance where beta has a usable cleaner and alpha has none. -/
def c9Inst : Instance :=
  { modelLabel := "app.M", metaFieldNames := ["alpha", "beta"],
    attrs := [("alpha", Attr.val (Val.int 1)), ("beta", Attr.val (Val.int 2)),
              ("clean_beta", Attr.fn c9Fn)] }

/-- C9: clean_single_fields leaves a field unchanged when no usable
cleaner exists for it, that is when _get_field_cleaner yields nothing
truthy (no clean_<field> attribute, or one that is falsy or not
callable). -/
theorem claim_C9 (inst i2 : Instance) (f : String)
    (hno : usableCleaner inst f = false)
    (h : clean_single_fields inst = .ok i2) :
    lookupAttr i2 f = lookupAttr inst f ∧ readVal i2 f = readVal inst f := by
  have hb : (get_model_field_names inst).foldlM cleanFieldsStep inst = .ok i2 := h
  have hl := csf_go_frame f (get_model_field_names inst) inst i2 hno hb
  exact ⟨hl, by rw [readVal, readVal, hl]⟩

/-- Witness for C9 at a concrete input: cleaning changes beta but leaves
alpha, which has no cleaner, untouched. -/
theorem claim_C9_witness :
    lookupAttr (c9Inst.setattr "beta" (Attr.val (Val.int 9))) "alpha"
        = lookupAttr c9Inst "alpha"
    ∧ readVal (c9Inst.setattr "beta" (Attr.val (Val.int 9))) "alpha"
        = readVal c9Inst "alpha" :=
  claim_C9 c9Inst (c9Inst.setattr "beta" (Attr.val (Val.int 9))) "alpha" rfl rfl

/-- An instance whose field value compares equal to everything,
including the NoValue class. -/
def eqAnyInst : Instance :=
  { modelLabel := "app.M", metaFieldNames := ["x"],
    attrs := [("x", Attr.val Val.eqAny)] }

/-- C10: get_model_field_value raises AttributeError exactly when the
looked-up value (with the NoValue default) compares equal to the NoValue
class: in particular an existing field whose value compares equal to
NoValue raises although the field exists, a missing attribute raises,
and any other attribute value is returned. -/
theorem claim_C10 :
    (∀ (inst : Instance) (name : String),
      lookupAttr inst name = some (Attr.val Val.eqAny) →
      get_model_field_value inst name
        = .error (.attributeError (noFieldMsg name)))
    ∧ (∀ (inst : Instance) (name : String) (a : Attr),
      lookupAttr inst name = some a →
      pyEq (attrToVal a) Val.noValueClass = false →
      get_model_field_value inst name = .ok (attrToVal a))
    ∧ (∀ (inst : Instance) (name : String),
      lookupAttr inst name = Option.none →
      get_model_field_value inst name
        = .error (.attributeError (noFieldMsg name)))
    ∧ (∀ (inst : Instance) (name : String),
      isAttrErr (get_model_field_value inst name)
        = pyEq (attrToVal ((lookupAttr inst name).getD (Attr.val Val.noValueClass)))
            Val.noValueClass) := by
  refine ⟨?_, ?_, ?_, ?_⟩
  · intro inst name h
    simp [get_model_field_value, h, attrToVal, pyEq]
  · intro inst name a h1 h2
    simp [get_model_field_value, h1, h2]
  · intro inst name h
    exact gmfv_none inst name h
  · intro inst name
    cases hp : pyEq (attrToVal ((lookupAttr inst name).getD (Attr.val Val.noValueClass)))
        Val.noValueClass <;>
      simp [get_model_field_value, isAttrErr, hp]

/-- Witness for C10 at concrete inputs. -/
theorem claim_C10_witness :
    get_model_field_value eqAnyInst "x"
        = .error (.attributeError (noFieldMsg "x"))
    ∧ get_model_field_value wInst "some_field"
        = .ok (attrToVal (Attr.val (Val.int 5)))
    ∧ get_model_field_value wInst "zz"
        = .error (.attributeError (noFieldMsg "zz"))
    ∧ isAttrErr (get_model_field_value eqAnyInst "x")
        = pyEq (attrToVal ((lookupAttr eqAnyInst "x").getD (Attr.val Val.noValueClass)))
            Val.noValueClass :=
  ⟨claim_C10.1 eqAnyInst "x" rfl,
   claim_C10.2.1 wInst "some_field" (Attr.val (Val.int 5)) rfl rfl,
   claim_C10.2.2.1 wInst "zz" rfl,
   claim_C10.2.2.2 eqAnyInst "x"⟩

end CleanFields
